import Mathlib

/-!
# HexiRules — verification of the rule-engine specification

A shallow embedding of the HexiRules web UI (GridPanel, RulesPanel, API
client) and of the rule engine (parser, expander, matcher, stepper,
snapshot persistence), with theorems settling the specification claims.

UI components are translated from the TypeScript sources
(`web/src/ui/GridPanel.tsx`, `web/src/api/client.ts`,
`web/src/ui/RulesPanel.tsx`).  Engine components are modelled from the
specification, since the Python engine (`src/hex_rules.py`) is not part
of the sources at hand; each such definition is marked
`Modelled from the spec:` in its doc comment.

Floating-point arithmetic of the canvas geometry is embedded over `ℚ`,
with `Math.sqrt(3)` replaced by the exact rational value of the IEEE-754
double it evaluates to.
-/

namespace HexiRules

/-! ## GridPanel: available states and state cycling (GridPanel.tsx) -/

/-- The character class of the regex `/[a-zA-Z_]/g` used by `availableStates`. -/
def isStateChar (c : Char) : Bool := c.isAlpha || c == '_'

/-- Lexicographic comparison of character lists by code points — the
comparison JavaScript `Array.prototype.sort()` applies to strings. -/
def charListLe : List Char → List Char → Bool
  | [], _ => true
  | _ :: _, [] => false
  | a :: as, b :: bs =>
      if a < b then true
      else if b < a then false
      else charListLe as bs

/-- String comparison by code points. -/
def strLe (a b : String) : Bool := charListLe a.toList b.toList

/-- Insertion step of an insertion sort on strings; models JavaScript
`Array.prototype.sort()` (default lexicographic comparison) applied to the
single-character state strings. -/
def insertSorted (s : String) : List String → List String
  | [] => [s]
  | t :: ts => if strLe s t then s :: t :: ts else t :: insertSorted s ts

/-- `sortStrs l` sorts `l` lexicographically (the `Array.from(states).sort()`
call in `availableStates`). -/
def sortStrs (l : List String) : List String := l.foldr insertSorted []

/-- The `Set.add` accumulation of `availableStates`: each matched character is
added unless it is `'_'` or already present. -/
def addState (acc : List String) (s : String) : List String :=
  if s ≠ "_" ∧ s ∉ acc then acc ++ [s] else acc

/-- The state set after the regex scan of `availableStates`: start from
`{'_'}` and, when the rules text is non-empty (`if (rulesText)`), add every
character matching `[a-zA-Z_]` except `'_'`, in order of first
occurrence. -/
def stateMatches (rulesText : String) : List String :=
  if rulesText = "" then ["_"]
  else ((rulesText.toList.filter isStateChar).map Char.toString).foldl addState ["_"]

/-- `availableStates` from `GridPanel.tsx`: the scanned state set, with `'a'`
added when no other state was found (`states.size === 1`), sorted. -/
def availableStates (rulesText : String) : List String :=
  sortStrs (if (stateMatches rulesText).length = 1
    then stateMatches rulesText ++ ["a"] else stateMatches rulesText)

/-- JavaScript `Array.prototype.indexOf`: the index of the first occurrence,
`-1` when absent. -/
def jsIndexOf (l : List String) (s : String) : Int :=
  if s ∈ l then (l.indexOf s : Int) else -1

/-- `cycleState` from `GridPanel.tsx`:
`availableStates[(availableStates.indexOf(s) + 1) % availableStates.length]`. -/
def cycleState (states : List String) (s : String) : String :=
  states.getD ((jsIndexOf states s + 1) % (states.length : Int)).toNat "_"

/-! ## GridPanel: the click handler's next cell value (onCanvasClick) -/

/-- The `(nextState, nextDirection)` computed by `onCanvasClick` in
`GridPanel.tsx` before the `cellsSet` call.  `button = 0` is a left click
(cycle state, dropping the direction when the new state is `'_'`);
`button = 2` is a right click (cycle the direction of a non-empty cell via
`nextDirection === null ? 0 : (nextDirection + 1) % 6`); other buttons write
the current value back. -/
def clickNext (states : List String) (button : Nat) (curState : String)
    (curDir : Option Int) : String × Option Int :=
  if button = 0 then
    let ns := cycleState states curState
    (ns, if ns = "_" then none else curDir)
  else if button = 2 then
    if curState ≠ "_" then
      (curState, some (match curDir with
        | none => 0
        | some d => (d + 1) % 6))
    else (curState, curDir)
  else (curState, curDir)

/-- A direction value is valid when it lies in `1..6` (spec §3, and the
direction-marker guard `dir >= 1 && dir <= 6` of `Canvas.tsx`). -/
def validDir (d : Int) : Prop := 1 ≤ d ∧ d ≤ 6

instance (d : Int) : Decidable (validDir d) := by
  unfold validDir; infer_instance

/-! ## GridPanel: pixel-to-cell picking (pickCellFromEvent)

The geometry is embedded over `ℚ`.  `sqrt3` is the exact value of the
IEEE-754 double `Math.sqrt(3)`; `jsRound` is JavaScript `Math.round`
(round half toward positive infinity). -/

/-- The IEEE-754 double `Math.sqrt(3)`, as an exact rational. -/
def sqrt3 : ℚ := 3900231685776981 / 2251799813685248

/-- JavaScript `Math.round`: `⌊x + 1/2⌋`. -/
def jsRound (x : ℚ) : Int := ⌊x + (1 : ℚ) / 2⌋

/-- `hexSize` (`S`) in `GridPanel.tsx`. -/
def hexSize : ℚ := 14

/-- `VIEW_W = 2*sqrt(3)*S*(max(1,R)+0.5) + 2*S` from `GridPanel.tsx`. -/
def viewW (radius : Int) : ℚ :=
  2 * sqrt3 * hexSize * ((max 1 radius : Int) + (1 : ℚ) / 2) + 2 * hexSize

/-- `VIEW_H = 3*S*max(1,R) + 2*S + 2*S` from `GridPanel.tsx`. -/
def viewH (radius : Int) : ℚ :=
  3 * hexSize * (max 1 radius : Int) + 2 * hexSize + 2 * hexSize

/-- The cube-rounding step of `pickCellFromEvent`: round the fractional axial
coordinates `(qf, rf)` to the nearest hex. -/
def cubeRound (qf rf : ℚ) : Int × Int :=
  let zf : ℚ := -qf - rf
  let xi := jsRound qf
  let yi := jsRound rf
  let zi := jsRound zf
  let dx := |(xi : ℚ) - qf|
  let dy := |(yi : ℚ) - rf|
  let dz := |(zi : ℚ) - zf|
  if dx > dy ∧ dx > dz then (-yi - zi, yi)
  else if dy > dz then (xi, -xi - zi)
  else (xi, yi)

/-- The `scale` of `pickCellFromEvent`:
`Math.min(rect.width / VIEW_W, rect.height / VIEW_H)`. -/
def pickScale (radius : Int) (rectW rectH : ℚ) : ℚ :=
  min (rectW / viewW radius) (rectH / viewH radius)

/-- The `offsetX` of `pickCellFromEvent`: `(rect.width - contentW) / 2`. -/
def pickOffsetX (radius : Int) (rectW rectH : ℚ) : ℚ :=
  (rectW - viewW radius * pickScale radius rectW rectH) / 2

/-- The `offsetY` of `pickCellFromEvent`: `(rect.height - contentH) / 2`. -/
def pickOffsetY (radius : Int) (rectW rectH : ℚ) : ℚ :=
  (rectH - viewH radius * pickScale radius rectW rectH) / 2

/-- The fractional axial `qf` of `pickCellFromEvent`:
`(sqrt(3)/3 * x - 1/3 * y) / S` for the viewBox point of the mouse. -/
def fracQ (radius : Int) (rectW rectH cx cy : ℚ) : ℚ :=
  let px := (cx - pickOffsetX radius rectW rectH) / pickScale radius rectW rectH
  let py := (cy - pickOffsetY radius rectW rectH) / pickScale radius rectW rectH
  let x := px - viewW radius / 2
  let y := py - viewH radius / 2
  (sqrt3 / 3 * x - 1 / 3 * y) / hexSize

/-- The fractional axial `rf` of `pickCellFromEvent`: `(2/3 * y) / S`. -/
def fracR (radius : Int) (rectW rectH _cx cy : ℚ) : ℚ :=
  let py := (cy - pickOffsetY radius rectW rectH) / pickScale radius rectW rectH
  let y := py - viewH radius / 2
  (2 / 3 * y) / hexSize

/-- `pickCellFromEvent` from `GridPanel.tsx`: map a mouse position
`(cx, cy)` inside a `rectW × rectH` bounding rect to an axial coordinate,
accounting for `preserveAspectRatio="xMidYMid meet"` (no selection outside
the rendered content area), cube-round it, and reject coordinates with
`|q|, |r|, |q+r|` greater than `max(2, radius)`. -/
def pickCellFromEvent (radius : Int) (rectW rectH cx cy : ℚ) :
    Option (Int × Int) :=
  if cx < pickOffsetX radius rectW rectH
     ∨ cx > pickOffsetX radius rectW rectH + viewW radius * pickScale radius rectW rectH
     ∨ cy < pickOffsetY radius rectW rectH
     ∨ cy > pickOffsetY radius rectW rectH + viewH radius * pickScale radius rectW rectH
  then none
  else
    let qr := cubeRound (fracQ radius rectW rectH cx cy) (fracR radius rectW rectH cx cy)
    let rb := max 2 radius
    if |qr.1| > rb ∨ |qr.2| > rb ∨ |qr.1 + qr.2| > rb then none
    else some qr

/-- Grid membership (spec §3): `|q| ≤ R ∧ |r| ≤ R ∧ |q+r| ≤ R`. -/
def inGrid (radius q r : Int) : Prop :=
  |q| ≤ radius ∧ |r| ≤ radius ∧ |q + r| ≤ radius

instance (radius q r : Int) : Decidable (inGrid radius q r) := by
  unfold inGrid; infer_instance

/-! ## API client (web/src/api/client.ts) -/

/-- The observable part of a `fetch` response consumed by the helper `j`:
the `ok` flag, HTTP status and status text, and the decoded JSON body. -/
structure HttpResponse (α : Type) where
  ok : Bool
  status : Nat
  statusText : String
  body : α

/-- The shared helper `j` of `client.ts`: throw
``new Error(`${res.status} ${res.statusText}`)`` when the response is not
`ok`, otherwise return the decoded body. -/
def fetchJson {α : Type} (res : HttpResponse α) : Except String α :=
  if res.ok then Except.ok res.body
  else Except.error (toString res.status ++ " " ++ res.statusText)

/-- The `step` client operation: a call of the shared helper expecting a list
of log lines. -/
def stepResponse (res : HttpResponse (List String)) : Except String (List String) :=
  fetchJson res

/-! ## RulesPanel presets (RulesPanel.tsx) -/

/-- One entry of the `PRESETS` array of `RulesPanel.tsx`. -/
structure Preset where
  key : String
  name : String
  text : String
deriving DecidableEq, Repr

/-- The `PRESETS` array of `RulesPanel.tsx` (each `text` is the listed lines
joined with `'\n'`). -/
def PRESETS : List Preset :=
  [ ⟨"tree_apple", "Tree & Apple",
      "t[-a] => t%" ++ "\n" ++ "_[t.] => a" ++ "\n" ++ "t%[a] => t"⟩,
    ⟨"b3s23", "B3/S23",
      "_[a]3[_]3 => a" ++ "\n" ++ "a[a]2[_|a][_]3 => a" ++ "\n"
        ++ "a[_|a][_]5 | a[a]4[_|a][_|a] => _"⟩ ]

/-- `applyPreset` of `RulesPanel.tsx`: look the key up in `PRESETS` and, when
found, make its text the rules text. -/
def applyPresetText (key : String) : Option String :=
  (PRESETS.find? (fun p => p.key == key)).map Preset.text

/-- Modelled from the spec: the engine's parser (`src/hex_rules.py`, not
among the sources) expands the whole-line token `b3s23` into the HexiDirect
triple of §4.3; every other line is kept as is. -/
def presetLineExpansion (line : String) : List String :=
  if line = "b3s23" then
    ["_[a]3[_]3 => a", "a[a]2[_|a][_]3 => a", "a[_|a][_]5 | a[a]4[_|a][_|a] => _"]
  else [line]

/-! ## Engine data model

Modelled from the spec: the Python engine (`src/hex_rules.py`,
`src/hexios/...`) is not among the sources; the cell model, grid, matcher,
stepper, world façade and snapshot layer below follow §3–§4.7 of the
specification. -/

/-- Modelled from the spec: a cell value — a symbolic state and an optional
direction `1..6` (spec §3, Cell model). -/
structure CellVal where
  state : String
  dir : Option Nat
deriving DecidableEq, Repr

/-- The empty cell: state `_`, no direction. -/
def emptyCell : CellVal := ⟨"_", none⟩

/-- An axial coordinate `(q, r)`. -/
abbrev Coord := Int × Int

/-- Modelled from the spec: a grid is a mapping from coordinates to cell
values; out-of-bounds reads behave as `_` (spec §3, §4.5). -/
abbrev Grid := Coord → CellVal

/-- Modelled from the spec: the six neighbor offsets in clockwise order,
pinned by scenario 2 of §8 (direction 1 from `(0,0)` is `(0,-1)`), with
opposite directions `p` and `((p-1+3) mod 6)+1` at opposite offsets. -/
def neighborOffset : Nat → Coord
  | 1 => (0, -1)
  | 2 => (1, -1)
  | 3 => (1, 0)
  | 4 => (0, 1)
  | 5 => (-1, 1)
  | 6 => (-1, 0)
  | _ => (0, 0)

/-- Direction opposite to position `p` (spec glossary, Pointing):
`((p-1+3) mod 6)+1`. -/
def backDir (p : Nat) : Nat := (p - 1 + 3) % 6 + 1

/-- Direction rotation (spec invariant I5): `((d-1+k) mod 6)+1`. -/
def rotDir (d k : Nat) : Nat := (d - 1 + k % 6) % 6 + 1

/-- Modelled from the spec: the orientation marker of a concrete condition
(spec §3 Condition, §9 tagged variants). -/
inductive Orient where
  | any
  | dir (d : Nat)
  | pointing
  | anyDir
deriving DecidableEq, Repr

/-- Modelled from the spec: a fully specified condition of a concrete rule —
an explicit position `1..6`, a negation flag, a state token and an
orientation marker (spec §3, Concrete rule). -/
structure Cond where
  pos : Nat
  neg : Bool
  state : String
  ori : Orient
deriving DecidableEq, Repr

/-- Modelled from the spec: the target direction descriptor of a concrete
rule (spec §9, tagged variants
`None | Fixed(d) | Rotate(k) | RandomAny | TransferFromPointing(slot,k)`). -/
inductive TargetDir where
  | keepNone
  | fixed (d : Nat)
  | rotate (k : Nat)
  | randomAny
  | transfer (pos k : Nat)
deriving DecidableEq, Repr, Inhabited

/-- Modelled from the spec: a concrete rule — source state and literal
direction (or none), positioned conditions, target descriptor, and the
macro-group id of the abstract rule it came from (spec §3). -/
structure ConcreteRule where
  srcState : String
  srcDir : Option Nat
  conds : List Cond
  tgtState : String
  tgtDir : TargetDir
  group : Nat
deriving DecidableEq, Repr, Inhabited

/-- The in-bounds cell read: out-of-bounds coordinates read as `_` with no
direction (spec §8, boundary behavior). -/
def cellAt (radius : Int) (g : Grid) (c : Coord) : CellVal :=
  if inGrid radius c.1 c.2 then g c else emptyCell

/-! ## Matcher (spec §4.5) -/

/-- Modelled from the spec: satisfaction of one positioned condition
(spec §4.5).  Negated conditions ignore orientation; otherwise the neighbor
state must match and the orientation marker constrains its direction. -/
def condSat (radius : Int) (g : Grid) (c : Coord) (cond : Cond) : Bool :=
  let off := neighborOffset cond.pos
  let n := cellAt radius g (c.1 + off.1, c.2 + off.2)
  if cond.neg then n.state ≠ cond.state
  else
    n.state == cond.state &&
      (match cond.ori with
        | Orient.any => true
        | Orient.dir k => n.dir == some k
        | Orient.pointing => n.dir == some (backDir cond.pos)
        | Orient.anyDir => n.dir.isSome)

/-- Modelled from the spec: a concrete rule matches a cell iff its state and
direction equal the rule's source state and direction and every positioned
condition is satisfied (spec §4.5). -/
def ruleMatches (radius : Int) (g : Grid) (c : Coord) (rule : ConcreteRule) : Bool :=
  (cellAt radius g c).state == rule.srcState &&
  (cellAt radius g c).dir == rule.srcDir &&
  rule.conds.all (condSat radius g c)

/-! ## Deterministic RNG and rule application (spec §4.6) -/

/-- Modelled from the spec: the world's deterministic RNG, a linear
congruential generator on the seed (spec §4.6: "All RNG choices use the
world's deterministic RNG, seeded from a value the world exposes"). -/
def rngNext (seed : Nat) : Nat := (seed * 1103515245 + 12345) % 2147483648

/-- Draw a value below `n` and the successor seed. -/
def randBelow (seed n : Nat) : Nat × Nat :=
  let s := rngNext seed
  (s % n, s)

/-- Modelled from the spec: resolve the target direction descriptor
(spec §4.6 step 2): none stays none, a literal is taken as is, `%N` rotates
the source direction by `N`, random-any draws from `1..6`, and
transfer-from-pointing rotates the incoming direction of the pointing
neighbor. -/
def resolveDir (srcDir : Option Nat) (td : TargetDir) (seed : Nat) :
    Option Nat × Nat :=
  match td with
  | TargetDir.keepNone => (none, seed)
  | TargetDir.fixed d => (some d, seed)
  | TargetDir.rotate k =>
      match srcDir with
      | some d => (some (rotDir d k), seed)
      | none =>
          let p := randBelow seed 6
          (some (p.1 + 1), p.2)
  | TargetDir.randomAny =>
      let p := randBelow seed 6
      (some (p.1 + 1), p.2)
  | TargetDir.transfer pos k => (some (rotDir (backDir pos) k), seed)

/-- Modelled from the spec: apply a chosen rule to produce the next cell
value; when the new state is `_` the direction is dropped (invariant I1,
spec §4.6). -/
def applyRule (rule : ConcreteRule) (seed : Nat) : CellVal × Nat :=
  let p := resolveDir rule.srcDir rule.tgtDir seed
  if rule.tgtState = "_" then (emptyCell, p.2)
  else (⟨rule.tgtState, p.1⟩, p.2)

/-! ## Stepper (spec §4.6) -/

/-- First-occurrence deduplication (the partition keys of the Choose
phase). -/
def dedupNats (l : List Nat) : List Nat :=
  l.foldl (fun acc x => if x ∈ acc then acc else acc ++ [x]) []

/-- Log line for one applied rule (spec §4.6: the log lists, per non-trivial
cell, the matched rules and the chosen one). -/
def logLine (c : Coord) (matched : Nat) (chosen : ConcreteRule) : String :=
  "cell (" ++ toString c.1 ++ "," ++ toString c.2 ++ "): " ++ toString matched
    ++ " matched, applied rule of group " ++ toString chosen.group

/-- Modelled from the spec: the per-cell Collect and Choose phases
(spec §4.6).  A cell with no matching rule keeps its value; otherwise one
macro group is drawn uniformly, then one sibling of that group, and the rule
is applied. -/
def stepCell (radius : Int) (g : Grid) (rules : List ConcreteRule) (c : Coord)
    (seed : Nat) : CellVal × Nat × List String :=
  let ms := rules.filter (ruleMatches radius g c)
  if ms.isEmpty then (cellAt radius g c, seed, [])
  else
    let groups := dedupNats (ms.map ConcreteRule.group)
    let pg := randBelow seed groups.length
    let grp := groups.getD pg.1 0
    let sibs := ms.filter (fun r => r.group == grp)
    let pr := randBelow pg.2 sibs.length
    let rule := sibs.getD pr.1 default
    let pv := applyRule rule pr.2
    (pv.1, pv.2, [logLine c ms.length rule])

/-- The integer range `-R..R` (row/column enumeration of the grid). -/
def rangeInt (radius : Int) : List Int :=
  (List.range (2 * radius.toNat + 1)).map (fun i : Nat => (i : Int) - radius)

/-- All in-bounds coordinates in `(q, r)` lexicographic order (spec §5:
iteration order over cells is stable by `(q,r)` lexicographic). -/
def coordsInRadius (radius : Int) : List Coord :=
  (rangeInt radius).flatMap (fun q =>
    (rangeInt radius).filterMap (fun r =>
      if |q + r| ≤ radius then some (q, r) else none))

/-- Modelled from the spec: run the stepper over a list of coordinates,
threading the RNG seed in iteration order; returns the per-cell updates, the
log, and the final seed. -/
def stepUpdates (radius : Int) (g : Grid) (rules : List ConcreteRule) :
    List Coord → Nat → List (Coord × CellVal) × List String × Nat
  | [], seed => ([], [], seed)
  | c :: cs, seed =>
      let p := stepCell radius g rules c seed
      let rest := stepUpdates radius g rules cs p.2.1
      ((c, p.1) :: rest.1, p.2.2 ++ rest.2.1, rest.2.2)

/-- First value bound to `c` in an update list. -/
def findVal (l : List (Coord × CellVal)) (c : Coord) : Option CellVal :=
  match l with
  | [] => none
  | (c', v) :: rest => if c' = c then some v else findVal rest c

/-- Modelled from the spec: one generation of the two-phase stepper
(spec §4.6): evaluate every in-bounds coordinate against the previous grid
alone and assemble the next grid, the step log and the successor seed. -/
def step (radius : Int) (g : Grid) (rules : List ConcreteRule) (seed : Nat) :
    Grid × List String × Nat :=
  let u := stepUpdates radius g rules (coordsInRadius radius) seed
  (fun c =>
    match findVal u.1 c with
    | some v => v
    | none => cellAt radius g c,
   u.2.1, u.2.2)

/-! ## World façade and snapshots (spec §4.7, §6) -/

/-- Modelled from the spec: the world façade state — grid, compiled rule
set, source text, seed, history, log, and the world's name (spec §4.7). -/
structure World where
  name : String
  radius : Int
  rulesText : String
  rules : List ConcreteRule
  grid : Grid
  seed : Nat
  history : List (List (Coord × CellVal))
  log : List String

/-- One generation of a world: the stepper on its grid, rule set and seed. -/
def stepWorld (w : World) : Grid × List String × Nat :=
  step w.radius w.grid w.rules w.seed

/-- One cell of a world snapshot
(`{"q":int,"r":int,"state":string,"direction":int|null}`, spec §6). -/
structure SnapshotCell where
  q : Int
  r : Int
  state : String
  direction : Option Nat
deriving DecidableEq, Repr

/-- A world snapshot: radius, rules text and the sequence of non-empty
cells (spec §6). -/
structure Snapshot where
  radius : Int
  rulesText : String
  cells : List SnapshotCell
deriving DecidableEq, Repr

/-- The snapshot entry of one coordinate: `none` when the cell is empty. -/
def snapshotEntry (g : Grid) (c : Coord) : Option SnapshotCell :=
  if (g c).state = "_" then none
  else some ⟨c.1, c.2, (g c).state, (g c).dir⟩

/-- The non-empty in-bounds cells of a world, in enumeration order. -/
def worldCells (w : World) : List SnapshotCell :=
  (coordsInRadius w.radius).filterMap (snapshotEntry w.grid)

/-- Modelled from the spec: saving a world emits its radius, rules text and
non-empty cells (spec §6, World snapshot). -/
def saveWorld (w : World) : Snapshot :=
  ⟨w.radius, w.rulesText, worldCells w⟩

/-- The grid reconstructed from a list of snapshot cells. -/
def gridOfCells (cells : List SnapshotCell) : Grid := fun c =>
  match cells.find? (fun sc => sc.q == c.1 && sc.r == c.2) with
  | some sc => ⟨sc.state, sc.direction⟩
  | none => emptyCell

/-- Modelled from the spec: loading a snapshot validates bounds, drops
out-of-range cells, and rebuilds the world (spec §6). -/
def loadWorld (s : Snapshot) : World :=
  { name := ""
    radius := s.radius
    rulesText := s.rulesText
    rules := []
    grid := gridOfCells (s.cells.filter (fun sc => decide (inGrid s.radius sc.q sc.r)))
    seed := 0
    history := []
    log := [] }

/-! ## Parser (spec §4.3)

Modelled from the spec: the HexiDirect parser of the engine
(`src/hex_rules.py`) is not among the sources; the recursive-descent
parser below follows the authoritative EBNF of §4.3 and the rule-source
encoding of §6.  It works on character lists and reports failures as an
offset into the offending rule. -/

/-- Modelled from the spec: an orientation marker as written in the source
(`.`, `%`, or a literal direction). -/
inductive OrientMark where
  | dot
  | percent
  | dirM (d : Nat)
deriving DecidableEq, Repr

/-- Modelled from the spec: one alternative inside a bracket group
(`[ "-" ] [ direction ] state [ orient ]`). -/
structure AbstractAlt where
  neg : Bool
  pos : Option Nat
  state : String
  ori : Option OrientMark
deriving DecidableEq, Repr

/-- Modelled from the spec: a bracket group with its repeat count
(`[..]N`, default 1). -/
structure AbstractBracket where
  alts : List AbstractAlt
  repeatN : Nat
deriving DecidableEq, Repr

/-- Modelled from the spec: the source-direction marker of an abstract rule
(none, `%`, or a literal direction). -/
inductive SrcDirMark where
  | noneM
  | anyM
  | dirM (d : Nat)
deriving DecidableEq, Repr

/-- Modelled from the spec: the target marker of an abstract rule (no
direction, a literal direction, or the rotation marker `%N`, with `%` alone
meaning `%0`). -/
inductive TgtMark where
  | noDir
  | dirM (d : Nat)
  | rot (k : Nat)
deriving DecidableEq, Repr

/-- Modelled from the spec: an abstract rule as emitted by the parser
(spec §3). -/
structure AbstractRule where
  srcState : String
  srcDir : SrcDirMark
  brackets : List AbstractBracket
  tgtState : String
  tgt : TgtMark
deriving DecidableEq, Repr

/-- Modelled from the spec: the structured parse error — the offending rule
text and a byte offset into it (spec §4.3, §7). -/
structure ParseError where
  ruleText : String
  offset : Nat
deriving DecidableEq, Repr

/-- Skip insignificant whitespace, advancing the offset. -/
def skipWs : List Char → Nat → List Char × Nat
  | [], n => ([], n)
  | c :: cs, n =>
      if c = ' ' ∨ c = '\t' then skipWs cs (n + 1) else (c :: cs, n)

/-- Lowercase identifier character (`lower` of the grammar). -/
def isLowerCh (c : Char) : Bool := 'a' ≤ c && c ≤ 'z'

/-- A direction digit `1..6`, as a number. -/
def dirOfChar (c : Char) : Option Nat :=
  if '1' ≤ c ∧ c ≤ '6' then some (c.toNat - 48) else none

/-- Take the tail of an identifier (`{ lower | "_" }`). -/
def takeIdentRest : List Char → Nat → List Char × List Char × Nat
  | [], n => ([], [], n)
  | c :: cs, n =>
      if isLowerCh c || c = '_' then
        let t := takeIdentRest cs (n + 1)
        (c :: t.1, t.2.1, t.2.2)
      else ([], c :: cs, n)

/-- Parse a state token (`"_" | lower { lower | "_" }`) after skipping
whitespace; errors hold the failing offset. -/
def parseState (cs : List Char) (n : Nat) : Except Nat (String × List Char × Nat) :=
  let p := skipWs cs n
  match p.1 with
  | [] => Except.error p.2
  | c :: rest =>
      if c = '_' then Except.ok ("_", rest, p.2 + 1)
      else if isLowerCh c then
        let t := takeIdentRest rest (p.2 + 1)
        Except.ok (String.mk (c :: t.1), t.2.1, t.2.2)
      else Except.error p.2

/-- Parse one bracket alternative.  A negated alternative without an
explicit position is accepted and later expanded over the six positions
(spec §8 scenario 5 and the shipped preset `t[-a] => t%`); the pointing
shorthand `state.` is only legal without an explicit position (spec §4.3,
tie-breaks). -/
def parseAlt (cs : List Char) (n : Nat) : Except Nat (AbstractAlt × List Char × Nat) :=
  let p0 := skipWs cs n
  let negT : Bool × List Char × Nat :=
    match p0.1 with
    | '-' :: r => (true, r, p0.2 + 1)
    | _ => (false, p0.1, p0.2)
  let p1 := skipWs negT.2.1 negT.2.2
  let posT : Option Nat × List Char × Nat :=
    match p1.1 with
    | c :: r =>
        (match dirOfChar c with
          | some d => (some d, r, p1.2 + 1)
          | none => (none, c :: r, p1.2))
    | [] => (none, [], p1.2)
  match parseState posT.2.1 posT.2.2 with
  | Except.error e => Except.error e
  | Except.ok (st, cs2, n2) =>
      let oriT : Option OrientMark × List Char × Nat :=
        match cs2 with
        | '.' :: r => (some OrientMark.dot, r, n2 + 1)
        | '%' :: r => (some OrientMark.percent, r, n2 + 1)
        | c :: r =>
            (match dirOfChar c with
              | some d => (some (OrientMark.dirM d), r, n2 + 1)
              | none => (none, c :: r, n2))
        | [] => (none, [], n2)
      if oriT.1 = some OrientMark.dot ∧ posT.1 ≠ none then Except.error n2
      else Except.ok (⟨negT.1, posT.1, st, oriT.1⟩, oriT.2.1, oriT.2.2)

/-- Parse the `|`-separated alternatives of one bracket group. -/
def parseAlts (fuel : Nat) (cs : List Char) (n : Nat) :
    Except Nat (List AbstractAlt × List Char × Nat) :=
  match fuel with
  | 0 => Except.error n
  | fuel' + 1 =>
      match parseAlt cs n with
      | Except.error e => Except.error e
      | Except.ok (a, cs1, n1) =>
          let p := skipWs cs1 n1
          match p.1 with
          | '|' :: r =>
              (match parseAlts fuel' r (p.2 + 1) with
                | Except.error e => Except.error e
                | Except.ok (as, cs2, n2) => Except.ok (a :: as, cs2, n2))
          | _ => Except.ok ([a], p.1, p.2)

/-- Parse one bracket group `[ alt { "|" alt } ] [ integer ]`; the repeat
count must lie in `1..6` (spec §8, parser negative tests). -/
def parseBracket (cs : List Char) (n : Nat) :
    Except Nat (AbstractBracket × List Char × Nat) :=
  let p := skipWs cs n
  match p.1 with
  | '[' :: r =>
      (match parseAlts (r.length + 1) r (p.2 + 1) with
        | Except.error e => Except.error e
        | Except.ok (alts, cs1, n1) =>
            let q := skipWs cs1 n1
            match q.1 with
            | ']' :: r2 =>
                (match r2 with
                  | c :: r3 =>
                      if '0' ≤ c ∧ c ≤ '9' then
                        let v := c.toNat - 48
                        if 1 ≤ v ∧ v ≤ 6 then Except.ok (⟨alts, v⟩, r3, q.2 + 2)
                        else Except.error (q.2 + 1)
                      else Except.ok (⟨alts, 1⟩, c :: r3, q.2 + 1)
                  | [] => Except.ok (⟨alts, 1⟩, [], q.2 + 1))
            | _ => Except.error q.2)
  | _ => Except.error p.2

/-- Parse the sequence of bracket groups of a source. -/
def parseBracketList (fuel : Nat) (cs : List Char) (n : Nat) :
    Except Nat (List AbstractBracket × List Char × Nat) :=
  match fuel with
  | 0 => Except.error n
  | fuel' + 1 =>
      let p := skipWs cs n
      match p.1 with
      | '[' :: _ =>
          (match parseBracket p.1 p.2 with
            | Except.error e => Except.error e
            | Except.ok (b, cs1, n1) =>
                match parseBracketList fuel' cs1 n1 with
                | Except.error e => Except.error e
                | Except.ok (bs, cs2, n2) => Except.ok (b :: bs, cs2, n2))
      | _ => Except.ok ([], p.1, p.2)

/-- Check that only whitespace remains after a rule. -/
def expectEnd (t : String × TgtMark) (cs : List Char) (n : Nat) :
    Except Nat (String × TgtMark) :=
  let p := skipWs cs n
  match p.1 with
  | [] => Except.ok t
  | _ => Except.error p.2

/-- Parse a target `state [ "%" [ integer ] | direction ]`; a rotation
marker `%N` requires `N ∈ 0..5` (spec §3, §8). -/
def parseTarget (cs : List Char) (n : Nat) : Except Nat (String × TgtMark) :=
  match parseState cs n with
  | Except.error e => Except.error e
  | Except.ok (ts, cs1, n1) =>
      let p := skipWs cs1 n1
      match p.1 with
      | '%' :: r =>
          (match r with
            | c :: r2 =>
                if '0' ≤ c ∧ c ≤ '9' then
                  if c.toNat - 48 ≤ 5 then
                    expectEnd (ts, TgtMark.rot (c.toNat - 48)) r2 (p.2 + 2)
                  else Except.error (p.2 + 1)
                else expectEnd (ts, TgtMark.rot 0) (c :: r2) (p.2 + 1)
            | [] => expectEnd (ts, TgtMark.rot 0) [] (p.2 + 1))
      | c :: r =>
          (match dirOfChar c with
            | some d => expectEnd (ts, TgtMark.dirM d) r (p.2 + 1)
            | none => expectEnd (ts, TgtMark.noDir) (c :: r) p.2)
      | [] => Except.ok (ts, TgtMark.noDir)

/-- Parse one rule `source "=>" target`; errors carry the offset into the
rule text. -/
def parseRuleChars (cs : List Char) : Except Nat AbstractRule :=
  match parseState cs 0 with
  | Except.error e => Except.error e
  | Except.ok (src, cs1, n1) =>
      let p := skipWs cs1 n1
      let sd : SrcDirMark × List Char × Nat :=
        match p.1 with
        | '%' :: r => (SrcDirMark.anyM, r, p.2 + 1)
        | c :: r =>
            (match dirOfChar c with
              | some d => (SrcDirMark.dirM d, r, p.2 + 1)
              | none => (SrcDirMark.noneM, c :: r, p.2))
        | [] => (SrcDirMark.noneM, [], p.2)
      match parseBracketList (sd.2.1.length + 1) sd.2.1 sd.2.2 with
      | Except.error e => Except.error e
      | Except.ok (brs, cs2, n2) =>
          let q := skipWs cs2 n2
          match q.1 with
          | '=' :: '>' :: r =>
              (match parseTarget r (q.2 + 2) with
                | Except.error e => Except.error e
                | Except.ok (ts, tm) => Except.ok ⟨src, sd.1, brs, ts, tm⟩)
          | _ => Except.error q.2

/-- Split a source text into rule texts at newlines and semicolons
(spec §6, rule source encoding). -/
def splitSepsAux : List Char → List Char → List (List Char)
  | [], acc => [acc.reverse]
  | c :: cs, acc =>
      if c = '\n' ∨ c = ';' then acc.reverse :: splitSepsAux cs []
      else splitSepsAux cs (c :: acc)

/-- Split at rule terminators. -/
def splitSeps (cs : List Char) : List (List Char) := splitSepsAux cs []

/-- Drop leading whitespace characters. -/
def dropLeadWs (cs : List Char) : List Char :=
  cs.dropWhile (fun c => c == ' ' || c == '\t' || c == '\r')

/-- Trim whitespace at both ends of a rule text. -/
def trimChars (cs : List Char) : List Char :=
  (dropLeadWs ((dropLeadWs cs).reverse)).reverse

/-- Split a rule line at top-level `|` (outside brackets); the parts become
sibling rules of the same macro group (spec §6). -/
def topLevelSplitAux : List Char → Nat → List Char → List (List Char)
  | [], _, acc => [acc.reverse]
  | c :: cs, depth, acc =>
      if c = '[' then topLevelSplitAux cs (depth + 1) (c :: acc)
      else if c = ']' then topLevelSplitAux cs (depth - 1) (c :: acc)
      else if c = '|' ∧ depth = 0 then acc.reverse :: topLevelSplitAux cs 0 []
      else topLevelSplitAux cs depth (c :: acc)

/-- Top-level `|` split of one rule line. -/
def topLevelSplit (cs : List Char) : List (List Char) := topLevelSplitAux cs 0 []

/-- Find the first top-level `=>` and split the line into source section and
target section. -/
def splitArrowAux : List Char → Nat → List Char → Option (List Char × List Char)
  | [], _, _ => none
  | '=' :: '>' :: cs, 0, acc => some (acc.reverse, cs)
  | c :: cs, depth, acc =>
      if c = '[' then splitArrowAux cs (depth + 1) (c :: acc)
      else if c = ']' then splitArrowAux cs (depth - 1) (c :: acc)
      else splitArrowAux cs depth (c :: acc)

/-- Split a rule line at its top-level `=>`. -/
def splitArrow (cs : List Char) : Option (List Char × List Char) :=
  splitArrowAux cs 0 []

/-- The sibling rule texts of a line: the sources split at top-level `|`,
each rejoined with the shared `=>` target section (spec §4.3 Presets: the
`|` at rule level splits a line into multiple rules sharing the same source
text). -/
def siblingTexts (l : List Char) : List (List Char) :=
  match splitArrow l with
  | none => [l]
  | some (srcs, tgt) =>
      (topLevelSplit srcs).map (fun s => trimChars s ++ ('=' :: '>' :: tgt))

/-- Parse the `|`-siblings of one line; they share the group id, and a
failure names the offending rule text with the offset (spec §4.3). -/
def parseSibs (gid : Nat) : List (List Char) → Except ParseError (List (AbstractRule × Nat))
  | [] => Except.ok []
  | s :: ss =>
      match parseRuleChars (trimChars s) with
      | Except.error off => Except.error ⟨String.mk (trimChars s), off⟩
      | Except.ok r =>
          match parseSibs gid ss with
          | Except.error e => Except.error e
          | Except.ok rs => Except.ok ((r, gid) :: rs)

/-- Parse every numbered line. -/
def parseAllRules : List (Nat × List Char) → Except ParseError (List (AbstractRule × Nat))
  | [] => Except.ok []
  | (gid, l) :: rest =>
      match parseSibs gid (siblingTexts l) with
      | Except.error e => Except.error e
      | Except.ok rs =>
          match parseAllRules rest with
          | Except.error e => Except.error e
          | Except.ok rs2 => Except.ok (rs ++ rs2)

/-- Modelled from the spec: the full parser contract of §4.3 — split at
newlines and semicolons, ignore blank and comment lines, expand presets,
split top-level `|` into same-group siblings, and parse each rule; the
first failure is returned as a structured error. -/
def parseRules (text : String) : Except ParseError (List (AbstractRule × Nat)) :=
  let lines := (splitSeps text.toList).map trimChars
  let kept := lines.filter (fun l => ¬(l = [] ∨ l.headD ' ' = '#'))
  let expanded := kept.flatMap (fun l => (presetLineExpansion (String.mk l)).map String.toList)
  parseAllRules expanded.enum

/-! ## Macro expander (spec §4.4) -/

/-- Cartesian product of choice lists. -/
def listProd {α : Type} : List (List α) → List (List α)
  | [] => [[]]
  | xs :: rest => xs.flatMap (fun x => (listProd rest).map (fun l => x :: l))

/-- Position choices of one alternative: its explicit position, or all six
(spec §4.4 step 3). -/
def posChoices (a : AbstractAlt) : List Nat :=
  match a.pos with
  | some p => [p]
  | none => [1, 2, 3, 4, 5, 6]

/-- The concrete orientation of an alternative (spec §4.4 steps 4-5). -/
def oriOf (a : AbstractAlt) : Orient :=
  match a.ori with
  | none => Orient.any
  | some OrientMark.dot => Orient.pointing
  | some OrientMark.percent => Orient.anyDir
  | some (OrientMark.dirM d) => Orient.dir d

/-- Two conditions on the same position must agree; variants with an
incompatible clash are discarded (spec §4.4 step 3). -/
def condsCompatible (l : List Cond) : Bool :=
  l.all (fun c => l.all (fun c' => c.pos ≠ c'.pos || c == c'))

/-- Merge duplicate conditions. -/
def dedupConds (l : List Cond) : List Cond :=
  l.foldl (fun acc c => if c ∈ acc then acc else acc ++ [c]) []

/-- The source-direction variants of an abstract rule (spec §4.4 step 1). -/
def srcDirsOf : SrcDirMark → List (Option Nat)
  | SrcDirMark.noneM => [none]
  | SrcDirMark.dirM d => [some d]
  | SrcDirMark.anyM => [some 1, some 2, some 3, some 4, some 5, some 6]

/-- The target descriptor of a variant (spec §4.4 step 6): `%N` is a
rotation when the source has a direction and a random draw otherwise. -/
def tgtDirOf (sd : Option Nat) : TgtMark → TargetDir
  | TgtMark.noDir => TargetDir.keepNone
  | TgtMark.dirM d => TargetDir.fixed d
  | TgtMark.rot k =>
      match sd with
      | some _ => TargetDir.rotate k
      | none => TargetDir.randomAny

/-- Modelled from the spec: the macro expansion of one abstract rule
(spec §4.4) — source-direction variants, bracket repetition, the Cartesian
products over alternatives and positions, and the discarding of clashing
variants; every concrete rule inherits the group id. -/
def expandRule (r : AbstractRule) (gid : Nat) : List ConcreteRule :=
  let slots := r.brackets.flatMap (fun b => List.replicate b.repeatN b.alts)
  (srcDirsOf r.srcDir).flatMap (fun sd =>
    (listProd slots).flatMap (fun altChoice =>
      (listProd (altChoice.map posChoices)).filterMap (fun ps =>
        let conds := (altChoice.zip ps).map
          (fun ap => Cond.mk ap.2 ap.1.neg ap.1.state (oriOf ap.1))
        if condsCompatible conds then
          some ⟨r.srcState, sd, dedupConds conds, r.tgtState, tgtDirOf sd r.tgt, gid⟩
        else none)))

/-- Expand a parsed rule list. -/
def expandAll (rs : List (AbstractRule × Nat)) : List ConcreteRule :=
  rs.flatMap (fun p => expandRule p.1 p.2)

/-! ## Engine wrapper: rule replacement and stepping (spec §4.3, §4.6) -/

/-- The single log line produced for a parse failure. -/
def parseErrorMessage (e : ParseError) : String :=
  "Parse error in rule " ++ e.ruleText ++ " at offset " ++ toString e.offset

/-- Modelled from the spec: compile a rules text — on failure fall back to
the empty rule set with the error logged once (spec §4.3). -/
def compileRules (text : String) : List ConcreteRule × List String :=
  match parseRules text with
  | Except.error e => ([], [parseErrorMessage e])
  | Except.ok rs => (expandAll rs, [])

/-- Modelled from the spec: replace the rules of a world and step once.
Parser failures short-circuit the step — no rules, no changes, error logged
once (spec §4.6, failure semantics); a successful step pushes the pre-step
grid onto the history (spec §4.7). -/
def replaceRulesAndStep (w : World) (text : String) : World :=
  let c := compileRules text
  match c.2 with
  | [] =>
      let s := step w.radius w.grid c.1 w.seed
      { w with
          rulesText := text
          rules := c.1
          grid := s.1
          seed := s.2.2
          log := s.2.1
          history := w.history ++
            [(coordsInRadius w.radius).map (fun co => (co, cellAt w.radius w.grid co))] }
  | errs =>
      { w with rulesText := text, rules := [], log := errs }

/-! ## Concrete example data for evaluating the development -/

/-- A concrete grid: a single `a` cell with direction 1 at the origin. -/
def exGrid : Grid := fun c =>
  if c = ((0 : Int), (0 : Int)) then ⟨"a", some 1⟩ else emptyCell

/-- A concrete rule whose source state `b` matches no cell of `exGrid`. -/
def exRuleB : ConcreteRule := ⟨"b", none, [], "a", TargetDir.keepNone, 0⟩

/-- A concrete world of radius 1 over `exGrid`. -/
def exWorld : World :=
  ⟨"w1", 1, "", [], exGrid, 0, [], []⟩

/-- A world agreeing with `exWorld` on radius, grid, rules and seed but
differing in name and log. -/
def exWorldAlt : World :=
  ⟨"w2", 1, "", [], exGrid, 0, [], ["previous log"]⟩

/-! # Theorems -/

/-! ## Sorting and cycling of the available-states list -/

theorem insertSorted_perm (s : String) (l : List String) :
    (insertSorted s l).Perm (s :: l) := by
  induction l with
  | nil => exact List.Perm.refl _
  | cons t ts ih =>
      rw [insertSorted]
      split
      · exact List.Perm.refl _
      · exact (ih.cons t).trans (List.Perm.swap s t ts)

theorem sortStrs_perm (l : List String) : (sortStrs l).Perm l := by
  induction l with
  | nil => exact List.Perm.refl _
  | cons a l ih => exact (insertSorted_perm a (sortStrs l)).trans (ih.cons a)

theorem mem_sortStrs {x : String} {l : List String} : x ∈ sortStrs l ↔ x ∈ l :=
  (sortStrs_perm l).mem_iff

theorem nodup_sortStrs {l : List String} (h : l.Nodup) : (sortStrs l).Nodup :=
  ((sortStrs_perm l).nodup_iff).mpr h

theorem mem_addState {x : String} (acc : List String) (s : String) (h : x ∈ acc) :
    x ∈ addState acc s := by
  rw [addState]
  split
  · exact List.mem_append_left _ h
  · exact h

theorem mem_foldl_addState {x : String} (ss : List String) (acc : List String)
    (h : x ∈ acc) : x ∈ ss.foldl addState acc := by
  induction ss generalizing acc with
  | nil => exact h
  | cons s ss ih => exact ih _ (mem_addState acc s h)

theorem nodup_addState (acc : List String) (s : String) (h : acc.Nodup) :
    (addState acc s).Nodup := by
  rw [addState]
  split_ifs with hg
  · simp [List.nodup_append, h, hg.2]
  · exact h

theorem nodup_foldl_addState (ss : List String) (acc : List String)
    (h : acc.Nodup) : (ss.foldl addState acc).Nodup := by
  induction ss generalizing acc with
  | nil => exact h
  | cons s ss ih => exact ih _ (nodup_addState acc s h)

theorem foldl_addState_underscore (ss : List String) (acc : List String)
    (h : ∀ s ∈ ss, s = "_") : ss.foldl addState acc = acc := by
  induction ss with
  | nil => rfl
  | cons s ss ih =>
      have hs := h s (List.mem_cons_self s ss)
      rw [List.foldl_cons]
      rw [show addState acc s = acc from by rw [addState, if_neg]; simp [hs]]
      exact ih (fun x hx => h x (List.mem_cons_of_mem s hx))


theorem underscore_mem_stateMatches (t : String) : "_" ∈ stateMatches t := by
  rw [stateMatches]
  split
  · simp
  · exact mem_foldl_addState _ _ (by simp)

theorem nodup_stateMatches (t : String) : (stateMatches t).Nodup := by
  rw [stateMatches]
  split
  · simp
  · exact nodup_foldl_addState _ _ (by simp)

theorem underscore_mem_availableStates (t : String) : "_" ∈ availableStates t := by
  rw [availableStates, mem_sortStrs]
  split
  · exact List.mem_append_left _ (underscore_mem_stateMatches t)
  · exact underscore_mem_stateMatches t

theorem nodup_availableStates (t : String) : (availableStates t).Nodup := by
  rw [availableStates]
  apply nodup_sortStrs
  split_ifs with hlen
  · rcases List.length_eq_one.mp hlen with ⟨a, ha⟩
    have hm := underscore_mem_stateMatches t
    rw [ha] at hm ⊢
    simp at hm
    subst hm
    decide
  · exact nodup_stateMatches t

theorem a_mem_availableStates (t : String)
    (h : ∀ c ∈ t.toList, isStateChar c → c = '_') : "a" ∈ availableStates t := by
  have hsm : stateMatches t = ["_"] := by
    rw [stateMatches]
    split
    · rfl
    · apply foldl_addState_underscore
      intro s hs
      rcases List.mem_map.mp hs with ⟨c, hc, rfl⟩
      rcases List.mem_filter.mp hc with ⟨hct, hcs⟩
      rw [h c hct hcs]
      rfl
  rw [availableStates, mem_sortStrs, hsm]
  simp

theorem getD_of_lt (l : List String) (n : Nat) (d : String) (h : n < l.length) :
    l.getD n d = l[n] := by
  rw [List.getD_eq_getElem?_getD, List.getElem?_eq_getElem h, Option.getD_some]

theorem cycleState_getD (l : List String) (hnd : l.Nodup) (i : Nat)
    (h : i < l.length) :
    cycleState l (l.getD i "_") = l.getD ((i + 1) % l.length) "_" := by
  rw [getD_of_lt l i "_" h]
  rw [cycleState, jsIndexOf, if_pos (l.getElem_mem h)]
  rw [List.indexOf_getElem hnd i h]
  have hcast : ((i : Int) + 1) % (l.length : Int) = (((i + 1) % l.length : Nat) : Int) := by
    push_cast
    rfl
  rw [hcast, Int.toNat_natCast]

theorem cycleState_iterate_getD (l : List String) (hnd : l.Nodup) (n : Nat) :
    ∀ (i : Nat), i < l.length →
      (cycleState l)^[n] (l.getD i "_") = l.getD ((i + n) % l.length) "_" := by
  induction n with
  | zero =>
      intro i h
      rw [Function.iterate_zero_apply, Nat.add_zero, Nat.mod_eq_of_lt h]
  | succ n ih =>
      intro i h
      have hlen : 0 < l.length := Nat.lt_of_le_of_lt (Nat.zero_le i) h
      rw [Function.iterate_succ_apply', ih i h]
      rw [cycleState_getD l hnd _ (Nat.mod_lt _ hlen)]
      rw [Nat.mod_add_mod, Nat.add_assoc]

theorem cycleState_iterate_length (l : List String) (hnd : l.Nodup) (s : String)
    (hs : s ∈ l) : (cycleState l)^[l.length] s = s := by
  have hlt : l.indexOf s < l.length := List.indexOf_lt_length.mpr hs
  have hgd : l.getD (l.indexOf s) "_" = s := by
    rw [getD_of_lt l _ "_" hlt]
    exact List.getElem_indexOf hlt
  rw [← hgd, cycleState_iterate_getD l hnd _ _ hlt]
  rw [Nat.add_mod_right, Nat.mod_eq_of_lt hlt]

theorem stepCell_no_match (radius : Int) (g : Grid) (rules : List ConcreteRule)
    (c : Coord) (seed : Nat)
    (hc : rules.filter (ruleMatches radius g c) = []) :
    stepCell radius g rules c seed = (cellAt radius g c, seed, []) := by
  rw [stepCell, hc]
  rfl

theorem findVal_stepUpdates_no_match (radius : Int) (g : Grid)
    (rules : List ConcreteRule) (c : Coord)
    (hc : rules.filter (ruleMatches radius g c) = []) (cs : List Coord) :
    ∀ seed : Nat,
      findVal (stepUpdates radius g rules cs seed).1 c = none ∨
      findVal (stepUpdates radius g rules cs seed).1 c = some (cellAt radius g c) := by
  induction cs with
  | nil => intro seed; left; rfl
  | cons c' cs ih =>
      intro seed
      rw [stepUpdates, findVal]
      by_cases he : c' = c
      · subst he
        right
        rw [if_pos rfl, stepCell_no_match radius g rules c' seed hc]
      · rw [if_neg he]
        exact ih _

theorem mem_rangeInt {radius q : Int} :
    q ∈ rangeInt radius ↔ ∃ i : Nat, i < 2 * radius.toNat + 1 ∧ q = (i : Int) - radius := by
  rw [rangeInt]
  simp only [List.mem_map, List.mem_range]
  constructor
  · rintro ⟨i, hi, rfl⟩
    exact ⟨i, hi, rfl⟩
  · rintro ⟨i, hi, rfl⟩
    exact ⟨i, hi, rfl⟩

theorem nodup_rangeInt (radius : Int) : (rangeInt radius).Nodup := by
  rw [rangeInt]
  refine List.Nodup.map ?_ (List.nodup_range _)
  intro a b h
  simp only at h
  omega

theorem nodup_coordsInRadius (radius : Int) : (coordsInRadius radius).Nodup := by
  rw [coordsInRadius, List.nodup_flatMap]
  constructor
  · intro q hq
    refine List.Nodup.filterMap ?_ (nodup_rangeInt radius)
    intro a a' b hb hb'
    rw [Option.mem_def] at hb hb'
    split_ifs at hb hb'
    rw [Option.some.injEq] at hb hb'
    rw [← hb, Prod.mk.injEq] at hb'
    exact hb'.2.symm
  · refine List.Pairwise.imp ?_ (nodup_rangeInt radius)
    intro q q' hne x hx hx'
    rcases List.mem_filterMap.mp hx with ⟨r, hr, hxr⟩
    rcases List.mem_filterMap.mp hx' with ⟨r', hr', hxr'⟩
    split_ifs at hxr hxr'
    rw [Option.some.injEq] at hxr hxr'
    rw [← hxr, Prod.mk.injEq] at hxr'
    exact hne hxr'.1.symm

theorem mem_coordsInRadius_inGrid {radius : Int} {c : Coord}
    (h : c ∈ coordsInRadius radius) : inGrid radius c.1 c.2 := by
  rw [coordsInRadius] at h
  rcases List.mem_flatMap.mp h with ⟨q, hq, hc⟩
  rcases List.mem_filterMap.mp hc with ⟨r, hr, hcr⟩
  split_ifs at hcr with habs
  rw [Option.some.injEq] at hcr
  subst hcr
  rcases mem_rangeInt.mp hq with ⟨i, hi, rfl⟩
  rcases mem_rangeInt.mp hr with ⟨j, hj, rfl⟩
  have hrad : (0 : Int) ≤ radius := le_trans (abs_nonneg _) habs
  dsimp only
  refine ⟨abs_le.mpr ⟨by omega, by omega⟩, abs_le.mpr ⟨by omega, by omega⟩, habs⟩


theorem snapshotEntry_key (g : Grid) (x : Coord) (sc : SnapshotCell)
    (h : snapshotEntry g x = some sc) : sc.q = x.1 ∧ sc.r = x.2 := by
  rw [snapshotEntry] at h
  split_ifs at h
  rw [Option.some.injEq] at h
  rw [← h]
  exact ⟨rfl, rfl⟩

theorem find_filterMap_snapshot (g : Grid) (L : List Coord) (hnd : L.Nodup)
    (c : Coord) (hc : c ∈ L) :
    (L.filterMap (snapshotEntry g)).find? (fun sc => sc.q == c.1 && sc.r == c.2)
      = snapshotEntry g c := by
  induction L with
  | nil => cases hc
  | cons x L ih =>
      rw [List.filterMap_cons]
      rw [List.nodup_cons] at hnd
      rcases List.mem_cons.mp hc with hcx | hcL
      · subst hcx
        cases hx : snapshotEntry g c with
        | none =>
            dsimp only
            rw [List.find?_eq_none]
            intro sc hsc
            rcases List.mem_filterMap.mp hsc with ⟨y, hy, hsc'⟩
            have hk := snapshotEntry_key g y sc hsc'
            intro hpred
            rw [Bool.and_eq_true, beq_iff_eq, beq_iff_eq] at hpred
            have hyc : y = c := Prod.ext (hk.1.symm.trans hpred.1) (hk.2.symm.trans hpred.2)
            exact hnd.1 (hyc ▸ hy)
        | some sc =>
            dsimp only
            rw [List.find?_cons_of_pos]
            have hk := snapshotEntry_key g c sc hx
            rw [Bool.and_eq_true, beq_iff_eq, beq_iff_eq]
            exact ⟨hk.1, hk.2⟩
      · have hxc : x ≠ c := fun h => hnd.1 (h ▸ hcL)
        cases hx : snapshotEntry g x with
        | none => exact ih hnd.2 hcL
        | some sc =>
            dsimp only
            rw [List.find?_cons_of_neg]
            · exact ih hnd.2 hcL
            · have hk := snapshotEntry_key g x sc hx
              rw [Bool.and_eq_true, beq_iff_eq, beq_iff_eq]
              rintro ⟨h1, h2⟩
              exact hxc (Prod.ext (hk.1 ▸ h1) (hk.2 ▸ h2))

theorem saveWorld_cells_inGrid (w : World) (sc : SnapshotCell)
    (h : sc ∈ (saveWorld w).cells) : inGrid w.radius sc.q sc.r := by
  rcases List.mem_filterMap.mp h with ⟨x, hx, hsc⟩
  have hk := snapshotEntry_key w.grid x sc hsc
  have hin := mem_coordsInRadius_inGrid hx
  rw [hk.1, hk.2]
  exact hin


/-! ## Geometry evaluation helpers for the cell picker -/

theorem cubeRound_slightly_past_two (qf : ℚ) (h1 : 2 < qf) (h2 : qf < 5 / 2) :
    cubeRound qf 0 = (2, 0) := by
  have hx : jsRound qf = 2 := by
    rw [jsRound, Int.floor_eq_iff]
    constructor <;> push_cast <;> linarith
  have hy : jsRound 0 = 0 := by
    rw [jsRound, Int.floor_eq_iff]
    constructor <;> push_cast <;> linarith
  have hz : jsRound (-qf - 0) = -2 := by
    rw [jsRound, Int.floor_eq_iff]
    constructor <;> push_cast <;> linarith
  have hdx : |((2 : Int) : ℚ) - qf| = qf - 2 := by
    rw [abs_of_nonpos (by push_cast; linarith)]; push_cast; ring
  have hdy : |((0 : Int) : ℚ) - 0| = 0 := by norm_num
  have hdz : |((-2 : Int) : ℚ) - (-qf - 0)| = qf - 2 := by
    rw [abs_of_nonneg (by push_cast; linarith)]; push_cast; ring
  simp only [cubeRound, hx, hy, hz, hdx, hdy, hdz]
  rw [if_neg (by rintro ⟨_, h⟩; exact lt_irrefl _ h), if_neg (by intro h; linarith)]

theorem cubeRound_zero : cubeRound 0 0 = (0, 0) := by
  have hy : jsRound 0 = 0 := by
    rw [jsRound, Int.floor_eq_iff]
    constructor <;> push_cast <;> linarith
  have hz : jsRound (-0 - 0) = 0 := by
    rw [jsRound, Int.floor_eq_iff]
    constructor <;> push_cast <;> linarith
  simp only [cubeRound, hy, hz]
  norm_num

theorem pick_radius2_center : pickCellFromEvent 2 300 300 150 150 = some (0, 0) := by
  have hOffX : pickOffsetX 2 300 300 = 0 := by
    unfold pickOffsetX pickScale viewW viewH
    rw [min_def]
    norm_num [sqrt3, hexSize]
  have hOffY : pickOffsetY 2 300 300 = 223013987910438150 / 24004758056255401 := by
    unfold pickOffsetY pickScale viewW viewH
    rw [min_def]
    norm_num [sqrt3, hexSize]
  have hWS : viewW 2 * pickScale 2 300 300 = 300 := by
    unfold pickScale viewW viewH
    rw [min_def]
    norm_num [sqrt3, hexSize]
  have hHS : viewH 2 * pickScale 2 300 300 = 6755399441055744000 / 24004758056255401 := by
    unfold pickScale viewW viewH
    rw [min_def]
    norm_num [sqrt3, hexSize]
  have hqf : fracQ 2 300 300 150 150 = 0 := by
    unfold fracQ pickOffsetX pickOffsetY pickScale viewW viewH
    rw [min_def]
    norm_num [sqrt3, hexSize]
  have hrf : fracR 2 300 300 150 150 = 0 := by
    unfold fracR pickOffsetY pickScale viewW viewH
    rw [min_def]
    norm_num [sqrt3, hexSize]
  rw [pickCellFromEvent, if_neg]
  · simp only [hqf, hrf]
    rw [cubeRound_zero]
    norm_num
  · rw [hOffX, hOffY, hWS, hHS]
    norm_num

/-! ## API client helper -/

theorem fetchJson_spec {α : Type} (r : HttpResponse α) :
    (r.ok = true → fetchJson r = Except.ok r.body) ∧
    (fetchJson r = Except.error (toString r.status ++ " " ++ r.statusText) ↔
      r.ok = false) := by
  cases hok : r.ok
  · constructor
    · intro h
      cases h
    · rw [fetchJson, hok]
      simp
  · constructor
    · intro _
      rw [fetchJson, hok]
      simp
    · rw [fetchJson, hok]
      simp

/-! ## Claim C1 -/

/-- C1: the preset token `b3s23` expands to exactly the three HexiDirect
rules `_[a]3[_]3 => a`, `a[a]2[_|a][_]3 => a` and
`a[_|a][_]5 | a[a]4[_|a][_|a] => _`: the UI preset selector produces the
text whose lines are this list, the parse-time expansion of the line
`b3s23` is this list, and the two parse to the same abstract rules. -/
theorem preset_b3s23_expansion :
    applyPresetText "b3s23" = some ("_[a]3[_]3 => a" ++ "\n" ++ "a[a]2[_|a][_]3 => a"
      ++ "\n" ++ "a[_|a][_]5 | a[a]4[_|a][_|a] => _") ∧
    presetLineExpansion "b3s23" =
      ["_[a]3[_]3 => a", "a[a]2[_|a][_]3 => a", "a[_|a][_]5 | a[a]4[_|a][_|a] => _"] ∧
    (splitSeps ("_[a]3[_]3 => a" ++ "\n" ++ "a[a]2[_|a][_]3 => a"
        ++ "\n" ++ "a[_|a][_]5 | a[a]4[_|a][_|a] => _").toList).map String.mk =
      ["_[a]3[_]3 => a", "a[a]2[_|a][_]3 => a", "a[_|a][_]5 | a[a]4[_|a][_|a] => _"] ∧
    parseRules "b3s23" = parseRules ("_[a]3[_]3 => a" ++ "\n" ++ "a[a]2[_|a][_]3 => a"
      ++ "\n" ++ "a[_|a][_]5 | a[a]4[_|a][_|a] => _") :=
  ⟨rfl, rfl, rfl, rfl⟩

/-! ## Claim C2 -/

/-- C2: the right-click direction cycling of `onCanvasClick` violates the
direction invariant: on a non-empty cell with no direction it passes the
direction value 0 to `cellsSet` (and cycling from 5 wraps to 0, never
reaching 6), while directions must be none or in `1..6`. -/
theorem right_click_direction_zero :
    clickNext (availableStates "") 2 "a" none = ("a", some 0) ∧
    clickNext (availableStates "") 2 "a" (some 5) = ("a", some 0) ∧
    ¬ validDir 0 := by
  decide

/-! ## Claim C3 -/

/-- C3 counterexample: at world radius 1 the cell picker can return the
coordinate `(2, 0)`, which fails the radius-1 grid-membership test — the
bounds check uses `max(2, radius)` instead of the world radius.  The mouse
position is the midpoint of the right edge of a 300×300 rect. -/
theorem pick_cell_radius_one_out_of_bounds :
    pickCellFromEvent 1 300 300 300 150 = some (2, 0) ∧ ¬ inGrid 1 2 0 := by
  constructor
  · have hOffX : pickOffsetX 1 300 300 = 0 := by
      unfold pickOffsetX pickScale viewW viewH
      rw [min_def]
      norm_num [sqrt3, hexSize]
    have hOffY : pickOffsetY 1 300 300 = 66254398335705450 / 16204294684701439 := by
      unfold pickOffsetY pickScale viewW viewH
      rw [min_def]
      norm_num [sqrt3, hexSize]
    have hWS : viewW 1 * pickScale 1 300 300 = 300 := by
      unfold pickScale viewW viewH
      rw [min_def]
      norm_num [sqrt3, hexSize]
    have hHS : viewH 1 * pickScale 1 300 300 = 4728779608739020800 / 16204294684701439 := by
      unfold pickScale viewW viewH
      rw [min_def]
      norm_num [sqrt3, hexSize]
    have hqf : fracQ 1 300 300 300 150 =
        21066834524980022080436241258553 / 10141204801825835211973625643008 := by
      unfold fracQ pickOffsetX pickOffsetY pickScale viewW viewH
      rw [min_def]
      norm_num [sqrt3, hexSize]
    have hrf : fracR 1 300 300 300 150 = 0 := by
      unfold fracR pickOffsetY pickScale viewW viewH
      rw [min_def]
      norm_num [sqrt3, hexSize]
    rw [pickCellFromEvent, if_neg]
    · simp only [hqf, hrf]
      rw [cubeRound_slightly_past_two _ (by norm_num) (by norm_num)]
      norm_num
    · rw [hOffX, hOffY, hWS, hHS]
      norm_num
  · decide

/-- C3 (amended): for every integer world radius at least 2, every
coordinate the cell picker returns satisfies the grid-membership test of the
world's radius; at radius 1 the check is against `max(2, radius) = 2`, so
coordinates of the radius-2 grid outside the radius-1 grid can be
returned. -/
theorem pick_cell_within_radius_of_ge_two (radius : Int) (rectW rectH cx cy : ℚ)
    (q r : Int) (hR : 2 ≤ radius)
    (hpick : pickCellFromEvent radius rectW rectH cx cy = some (q, r)) :
    inGrid radius q r := by
  simp only [pickCellFromEvent] at hpick
  split_ifs at hpick with h1 h2
  · push_neg at h2
    rw [Option.some.injEq] at hpick
    rw [max_eq_right hR, hpick] at h2
    exact ⟨h2.1, h2.2.1, h2.2.2⟩

/-- C3 witness: at radius 2, clicking the center of a 300×300 rect picks
`(0, 0)`, which the amended theorem places inside the radius-2 grid. -/
theorem pick_cell_within_radius_witness : inGrid 2 0 0 :=
  pick_cell_within_radius_of_ge_two 2 300 300 150 150 0 0 (by decide)
    pick_radius2_center

/-! ## Claim C4 -/

/-- C4: an `onCanvasClick` write never pairs the empty state `_` with a
direction: if the current cell satisfies the invariant (state `_` implies no
direction), then whenever the written state is `_` the written direction is
none, for every button. -/
theorem empty_state_write_drops_direction (states : List String) (button : Nat)
    (s : String) (d : Option Int) (hinv : s = "_" → d = none) :
    (clickNext states button s d).1 = "_" → (clickNext states button s d).2 = none := by
  unfold clickNext
  split_ifs with h0 h2 hne
  · dsimp only
    intro h
    rw [if_pos h]
  · dsimp only
    intro h
    exact absurd h hne
  · exact fun h => hinv h
  · exact fun h => hinv h

/-- C4 witness: a right click on an empty cell with no direction writes the
empty state with no direction. -/
theorem empty_state_write_drops_direction_witness :
    (clickNext ["_", "a"] 2 "_" none).2 = none :=
  empty_state_write_drops_direction ["_", "a"] 2 "_" none (fun _ => rfl) rfl

/-! ## Claim C5 -/

/-- C5: when parsing the rules text fails, the engine falls back to the
empty rule set, the grid is unchanged by the step, and the structured error
(naming the offending rule and a byte offset) is logged exactly once. -/
theorem parse_failure_safe (w : World) (text : String) (e : ParseError)
    (he : parseRules text = Except.error e) :
    (replaceRulesAndStep w text).rules = [] ∧
    (replaceRulesAndStep w text).grid = w.grid ∧
    (replaceRulesAndStep w text).log = [parseErrorMessage e] := by
  have hc : compileRules text = ([], [parseErrorMessage e]) := by
    rw [compileRules, he]
  simp only [replaceRulesAndStep, hc]
  simp

/-- C5 witness: the text `3` fails to parse (a state cannot start with a
digit), the error names the rule `3` at offset 0, and the engine keeps the
grid with the empty rule set and one error log line. -/
theorem parse_failure_safe_witness :
    parseRules "3" = Except.error ⟨"3", 0⟩ ∧
    ((replaceRulesAndStep exWorld "3").rules = [] ∧
     (replaceRulesAndStep exWorld "3").grid = exWorld.grid ∧
     (replaceRulesAndStep exWorld "3").log = [parseErrorMessage ⟨"3", 0⟩]) :=
  ⟨rfl, parse_failure_safe exWorld "3" ⟨"3", 0⟩ rfl⟩

/-! ## Claim C7 -/

/-- C7: snapshot round-trip — loading the saved snapshot of any world
yields a world equal to it on the tuple (radius, rules text, non-empty
cells). -/
theorem snapshot_round_trip (w : World) :
    (loadWorld (saveWorld w)).radius = w.radius ∧
    (loadWorld (saveWorld w)).rulesText = w.rulesText ∧
    worldCells (loadWorld (saveWorld w)) = worldCells w := by
  refine ⟨rfl, rfl, ?_⟩
  have hfil : (saveWorld w).cells.filter
      (fun sc => decide (inGrid (saveWorld w).radius sc.q sc.r)) = (saveWorld w).cells := by
    rw [List.filter_eq_self]
    intro sc hsc
    exact decide_eq_true (saveWorld_cells_inGrid w sc hsc)
  show (coordsInRadius w.radius).filterMap
      (snapshotEntry (loadWorld (saveWorld w)).grid) = worldCells w
  rw [worldCells]
  apply List.filterMap_congr
  intro c hcL
  show snapshotEntry (gridOfCells ((saveWorld w).cells.filter _)) c = snapshotEntry w.grid c
  rw [hfil]
  have hg : gridOfCells (saveWorld w).cells c =
      (match snapshotEntry w.grid c with
        | some sc => (⟨sc.state, sc.direction⟩ : CellVal)
        | none => emptyCell) := by
    rw [gridOfCells]
    rw [show (saveWorld w).cells = (coordsInRadius w.radius).filterMap (snapshotEntry w.grid) from rfl]
    rw [find_filterMap_snapshot w.grid (coordsInRadius w.radius)
      (nodup_coordsInRadius w.radius) c hcL]
  cases hsc : snapshotEntry w.grid c with
  | none =>
      rw [hsc] at hg
      rw [snapshotEntry, hg]
      simp [emptyCell]
  | some sc =>
      rw [hsc] at hg
      have hstate : sc.state = (w.grid c).state ∧ sc.direction = (w.grid c).dir ∧
          sc.q = c.1 ∧ sc.r = c.2 ∧ (w.grid c).state ≠ "_" := by
        rw [snapshotEntry] at hsc
        split_ifs at hsc with hemp
        rw [Option.some.injEq] at hsc
        rw [← hsc]
        exact ⟨rfl, rfl, rfl, rfl, hemp⟩
      rw [snapshotEntry, hg]
      dsimp only
      rw [if_neg (by rw [hstate.1]; exact hstate.2.2.2.2)]
      obtain ⟨h1, h2, h3, h4, h5⟩ := hstate
      cases sc
      simp_all

/-! ## Claim C6 (statement) -/

/-- C6: a cell whose set of matching concrete rules is empty keeps exactly
its previous value (state and direction) in the next generation produced by
`step`, for every grid, rule set and seed. -/
theorem unmatched_cell_keeps_value (radius : Int) (g : Grid)
    (rules : List ConcreteRule) (seed : Nat) (c : Coord)
    (hin : inGrid radius c.1 c.2)
    (hc : rules.filter (ruleMatches radius g c) = []) :
    (step radius g rules seed).1 c = g c := by
  rw [step]
  rcases findVal_stepUpdates_no_match radius g rules c hc (coordsInRadius radius) seed
    with h | h
  · simp only [h]
    rw [cellAt, if_pos hin]
  · simp only [h]
    rw [cellAt, if_pos hin]

/-- C6 witness: the rule for state `b` does not match the `a` cell at the
origin, so a step keeps that cell of `exGrid` exactly. -/
theorem unmatched_cell_keeps_value_witness :
    (step 1 exGrid [exRuleB] 0).1 (0, 0) = exGrid (0, 0) :=
  unmatched_cell_keeps_value 1 exGrid [exRuleB] 0 (0, 0) (by decide) rfl

/-! ## Claim C8 -/

/-- C8: `step` is deterministic for a given seed — two worlds with the same
radius, grid, compiled rule set and RNG seed produce the same next grid and
the same log, whatever their other components (name, history, log). -/
theorem step_deterministic_for_seed (w1 w2 : World) (hR : w1.radius = w2.radius)
    (hg : w1.grid = w2.grid) (hr : w1.rules = w2.rules) (hs : w1.seed = w2.seed) :
    (stepWorld w1).1 = (stepWorld w2).1 ∧ (stepWorld w1).2.1 = (stepWorld w2).2.1 := by
  rw [stepWorld, stepWorld, hR, hg, hr, hs]
  exact ⟨rfl, rfl⟩

/-- C8 witness: two worlds differing only in name and log step to the same
grid and log. -/
theorem step_deterministic_for_seed_witness :
    (stepWorld exWorld).1 = (stepWorld exWorldAlt).1 ∧
    (stepWorld exWorld).2.1 = (stepWorld exWorldAlt).2.1 :=
  step_deterministic_for_seed exWorld exWorldAlt rfl rfl rfl rfl

/-! ## Claim C9 -/

/-- C9: the client `step` operation returns the log lines when the HTTP
response is ok and produces an error naming the HTTP status iff the
response is not ok; the same holds for every operation built on the shared
helper `j` (`fetchJson`). -/
theorem client_raises_iff_not_ok {α : Type} (res2 : HttpResponse α)
    (res : HttpResponse (List String)) :
    (res.ok = true → stepResponse res = Except.ok res.body) ∧
    (stepResponse res = Except.error (toString res.status ++ " " ++ res.statusText) ↔
      res.ok = false) ∧
    (res2.ok = true → fetchJson res2 = Except.ok res2.body) ∧
    (fetchJson res2 = Except.error (toString res2.status ++ " " ++ res2.statusText) ↔
      res2.ok = false) :=
  ⟨(fetchJson_spec res).1, (fetchJson_spec res).2,
   (fetchJson_spec res2).1, (fetchJson_spec res2).2⟩

/-- C9 witness: an ok 200 response yields the log lines; a failing 500
response yields an error carrying the status. -/
theorem client_raises_iff_not_ok_witness :
    stepResponse ⟨true, 200, "OK", ["line"]⟩ = Except.ok ["line"] ∧
    stepResponse ⟨false, 500, "Internal Server Error", []⟩ =
      Except.error (toString 500 ++ " " ++ "Internal Server Error") :=
  ⟨(client_raises_iff_not_ok ⟨true, 200, "OK", (0 : Nat)⟩
      ⟨true, 200, "OK", ["line"]⟩).1 rfl,
   ((client_raises_iff_not_ok ⟨true, 200, "OK", (0 : Nat)⟩
      ⟨false, 500, "Internal Server Error", []⟩).2.1).mpr rfl⟩

/-! ## Claim C10 -/

/-- C10: the available-states list always contains `_`, contains `a`
whenever the rules text yields no other state, and `cycleState` is a cyclic
permutation of the list: for every state in the list, applying `cycleState`
a number of times equal to the list's length returns the state itself. -/
theorem available_states_cycle (t : String) (s : String)
    (hs : s ∈ availableStates t) :
    "_" ∈ availableStates t ∧
    ((∀ c ∈ t.toList, isStateChar c → c = '_') → "a" ∈ availableStates t) ∧
    (cycleState (availableStates t))^[(availableStates t).length] s = s :=
  ⟨underscore_mem_availableStates t,
   fun h => a_mem_availableStates t h,
   cycleState_iterate_length _ (nodup_availableStates t) s hs⟩

/-- C10 witness: for the empty rules text the list is `["_", "a"]` and
cycling twice from `a` returns `a`. -/
theorem available_states_cycle_witness :
    "a" ∈ availableStates "" ∧
    ("_" ∈ availableStates "" ∧
     ((∀ c ∈ "".toList, isStateChar c → c = '_') → "a" ∈ availableStates "") ∧
     (cycleState (availableStates ""))^[(availableStates "").length] "a" = "a") :=
  ⟨by decide, available_states_cycle "" "a" (by decide)⟩

end HexiRules
